import Mathlib

/-!
Shallow embedding of the intent-interpretation workflow frontend
(`src/frontend/src/App.jsx`): the conversation state, the selection
construction performed at validation time, the clarification pre-fill,
and the workflow step handlers, together with theorems checking the
specification claims about them.

JavaScript objects used as string-keyed maps are embedded as association
lists with JavaScript assignment semantics (`objInsert`): assigning an
existing key updates its value in place, a new key is appended.  The
remote calls are embedded as `Except String` response values passed to
the handlers; each handler returns the successor component state
together with the list of gateway calls it issued.
-/

namespace IntentApp

structure DependencyRef where
  id : String
  name : String
  version : String
deriving DecidableEq

structure ServiceCandidate where
  service_id : String
  name : String
  description : String
  score : Rat
  dependencies : List DependencyRef
deriving DecidableEq

structure IdentifiedService where
  nom : String
  raison : String
  proprietes : List (String × String)
deriving DecidableEq

abbrev Catalog := List (String × List ServiceCandidate)
abbrev Picks := List (String × String)
abbrev Validated := List (String × ServiceCandidate)

structure Decomposition where
  services_identifies : List IdentifiedService
  candidates : Catalog
deriving DecidableEq

structure ClarifyResponse where
  services_identifies : List IdentifiedService
  candidates : Catalog
  pre_validated_services : List String
deriving DecidableEq

inductive ClassType
  | TELECOM
  | GREETING
  | OFF_TOPIC
deriving DecidableEq

structure Classification where
  type : ClassType
  message : String
deriving DecidableEq

structure Intent where
  name : String
  characteristic : List String
deriving DecidableEq

structure ConversationState where
  user_request_original : String
  services_valides : Validated
  services_identifies : List IdentifiedService
  historique : List String
deriving DecidableEq

structure AppState where
  activeStep : Nat
  userInput : String
  error : Option String
  classification : Option Classification
  decomposition : Option Decomposition
  selectedServices : Picks
  validatedServices : List String
  clarificationResponse : String
  alternatives : List String
  finalIntent : Option Intent
  conversationState : ConversationState
deriving DecidableEq

/-- JavaScript `String.prototype.trim()`: removes whitespace from both ends
of the string (structurally recursive so that concrete guard checks compute). -/
def jsTrim (s : String) : String :=
  ⟨((s.data.dropWhile Char.isWhitespace).reverse.dropWhile Char.isWhitespace).reverse⟩

/-- Association-list lookup with string keys (JavaScript `obj[key]`). -/
def alookup {α : Type} : List (String × α) → String → Option α
  | [], _ => none
  | (k, v) :: r, key => if k = key then some v else alookup r key

/-- JavaScript object assignment `obj[k] = v`: an existing key keeps its
position and gets the new value, a new key is appended. -/
def objInsert {α : Type} (m : List (String × α)) (k : String) (v : α) :
    List (String × α) :=
  if (alookup m k).isSome then
    m.map (fun p => if p.1 = k then (k, v) else p)
  else
    m ++ [(k, v)]

/-- JavaScript truthiness of `selectedServices[nom]`: the key is present
and its value is a non-empty string. -/
def truthy (picks : Picks) (nom : String) : Bool :=
  match alookup picks nom with
  | some v => !(v == "")
  | none => false

/-- `decomposition.candidates[serviceName]?.find(c => c.service_id === serviceId)`
from `handleValidation`: optional-chained catalog lookup followed by a
search for the picked candidate id. -/
def findCand (cat : Catalog) (nom sid : String) : Option ServiceCandidate :=
  (alookup cat nom).bind (fun cs => cs.find? (fun c => c.service_id == sid))

/-- One iteration of the `Object.entries(selectedServices).forEach` loop in
`handleValidation`: insert the matching candidate when found, skip otherwise. -/
def resolveStep (cat : Catalog) (acc : Validated) (p : String × String) : Validated :=
  match findCand cat p.1 p.2 with
  | some c => objInsert acc p.1 c
  | none => acc

/-- The `validated` object built by `handleValidation` from the user's picks
and the current round's candidate catalog. -/
def resolve (picks : Picks) (cat : Catalog) : Validated :=
  picks.foldl (resolveStep cat) []

/-- The `allServicesValidated` check of `handleValidation`: every identified
service has a truthy pick. -/
def isComplete (identified : List IdentifiedService) (picks : Picks) : Bool :=
  identified.all (fun s => truthy picks s.nom)

/-- One iteration of the `data.pre_validated_services.forEach` loop in
`handleClarification`: prefer the already-validated candidate's id, else fall
back to the first candidate of the new catalog, else leave no pick. -/
def preSelectStep (valides : Validated) (cat : Catalog) (acc : Picks)
    (svcNom : String) : Picks :=
  match alookup valides svcNom with
  | some c => objInsert acc svcNom c.service_id
  | none =>
    match (alookup cat svcNom).bind List.head? with
    | some c0 => objInsert acc svcNom c0.service_id
    | none => acc

/-- The `preSelected` object built by `handleClarification` from the response's
`pre_validated_services`, the accumulated validated selection, and the new
candidate catalog. -/
def preSelect (pvs : List String) (valides : Validated) (cat : Catalog) : Picks :=
  pvs.foldl (preSelectStep valides cat) []

/-- The value a pre-validated service's pick receives in `handleClarification`
(`none` when the name is neither validated nor present with a candidate in the
new catalog). -/
def preVal (valides : Validated) (cat : Catalog) (nom : String) : Option String :=
  match alookup valides nom with
  | some c => some c.service_id
  | none => ((alookup cat nom).bind List.head?).map (fun c => c.service_id)

/-- The refused-services computation shared by `handleClarification` and
`handleAlternatives`: identified services without a truthy pick. -/
def refusedOf (d : Decomposition) (picks : Picks) : List String :=
  (d.services_identifies.filter (fun s => !(truthy picks s.nom))).map (fun s => s.nom)

/-- Request body of the `/api/clarify` call. -/
structure ClarifyRequest where
  user_clarification : String
  services_valides_noms : List String
  services_refuses : List String
  original_request : String
  services_valides_data : Validated
  services_identifies_precedents : List IdentifiedService
deriving DecidableEq

/-- The clarify request `handleClarification` builds: the clarification text,
the validated names, the refused names, the original request text, the full
validated-selection data, and the previous round's identified services. -/
def clarReqOf (st : AppState) (d : Decomposition) : ClarifyRequest :=
  { user_clarification := st.clarificationResponse
    services_valides_noms := st.validatedServices
    services_refuses := refusedOf d st.selectedServices
    original_request := st.userInput
    services_valides_data := st.conversationState.services_valides
    services_identifies_precedents := d.services_identifies }

/-- Request body of the `/api/generate-intent` call. -/
structure GenerateRequest where
  services_valides : Validated
  services_identifies : List IdentifiedService
  user_request_original : String
deriving DecidableEq

/-- A gateway call issued by a handler (the five `/api` fetches). -/
inductive Call
  | classify
  | decompose
  | clarifyCall (req : ClarifyRequest)
  | alternativesCall
  | generate (req : GenerateRequest)
deriving DecidableEq

def initConversation : ConversationState :=
  { user_request_original := ""
    services_valides := []
    services_identifies := []
    historique := [] }

def initState : AppState :=
  { activeStep := 0
    userInput := ""
    error := none
    classification := none
    decomposition := none
    selectedServices := []
    validatedServices := []
    clarificationResponse := ""
    alternatives := []
    finalIntent := none
    conversationState := initConversation }

/-- `generateIntent(servicesValides, servicesIdentifies)`: optional arguments
default to the conversation state (`servicesValides || conversationState...`),
a generate call is always issued, the state gains the intent and moves to step
4 on success, only the error message on failure. -/
def generateIntentFn (st : AppState) (sv : Option Validated)
    (si : Option (List IdentifiedService)) (resp : Except String Intent) :
    AppState × List Call :=
  let validated := sv.getD st.conversationState.services_valides
  let identified := si.getD st.conversationState.services_identifies
  let req : GenerateRequest :=
    { services_valides := validated
      services_identifies := identified
      user_request_original := st.conversationState.user_request_original }
  match resp with
  | .error msg => ({ st with error := some msg }, [Call.generate req])
  | .ok intent =>
    ({ st with error := none, finalIntent := some intent, activeStep := 4 },
      [Call.generate req])

/-- `handleDecomposition`, reached from `handleClassification` on a TELECOM
classification. -/
def handleDecompositionFn (st : AppState) (resp : Except String Decomposition) :
    AppState × List Call :=
  match resp with
  | .error msg => ({ st with error := some msg }, [Call.decompose])
  | .ok data =>
    ({ st with
        decomposition := some data
        conversationState := { st.conversationState with
          user_request_original := st.userInput
          services_identifies := data.services_identifies
          historique := st.conversationState.historique ++
            ["Demande: " ++ st.userInput] }
        activeStep := 2 }, [Call.decompose])

/-- `handleClassification`: blank-input guard, then the classify call; a
TELECOM result chains directly into the decompose call. -/
def handleClassification (st : AppState) (resp : Except String Classification)
    (dresp : Except String Decomposition) : AppState × List Call :=
  if jsTrim st.userInput = "" then
    ({ st with error := some "Veuillez entrer une demande" }, [])
  else
    match resp with
    | .error msg => ({ st with error := some msg }, [Call.classify])
    | .ok data =>
      let st1 := { st with error := none, classification := some data }
      if data.type = ClassType.TELECOM then
        let r := handleDecompositionFn st1 dresp
        (r.1, Call.classify :: r.2)
      else
        ({ st1 with activeStep := 1 }, [Call.classify])

/-- `handleValidation`: empty-selection guard, construction of the validated
object from the picks and the current catalog, wholesale replacement of
`services_valides`, completeness check on the picks, then either the generate
call or the clarification step. -/
def handleValidation (st : AppState) (resp : Except String Intent) :
    AppState × List Call :=
  if st.selectedServices.length = 0 then
    ({ st with error := some "Veuillez sélectionner au moins un service" }, [])
  else
    match st.decomposition with
    | none => ({ st with error := some "TypeError: decomposition is null" }, [])
    | some d =>
      let validated := resolve st.selectedServices d.candidates
      let st1 := { st with
        error := none
        conversationState := { st.conversationState with
          services_valides := validated
          services_identifies := d.services_identifies }
        validatedServices := validated.map Prod.fst }
      if isComplete d.services_identifies st.selectedServices then
        generateIntentFn st1 (some validated) (some d.services_identifies) resp
      else
        ({ st1 with activeStep := 3 }, [])

/-- `handleClarification`: blank-text guard, the six-field clarify request,
then on success the new decomposition replaces the old one, the picks are
pre-filled from `pre_validated_services`, and one history entry is appended. -/
def handleClarification (st : AppState) (resp : Except String ClarifyResponse) :
    AppState × List Call :=
  if jsTrim st.clarificationResponse = "" then
    ({ st with error := some "Veuillez répondre à la question" }, [])
  else
    match st.decomposition with
    | none => ({ st with error := some "TypeError: decomposition is null" }, [])
    | some d =>
      let req : ClarifyRequest := clarReqOf st d
      match resp with
      | .error msg => ({ st with error := some msg }, [Call.clarifyCall req])
      | .ok data =>
        let newSel : Picks :=
          if 0 < data.pre_validated_services.length then
            preSelect data.pre_validated_services
              st.conversationState.services_valides data.candidates
          else []
        ({ st with
            error := none
            decomposition := some
              { services_identifies := data.services_identifies
                candidates := data.candidates }
            selectedServices := newSel
            conversationState := { st.conversationState with
              services_identifies := data.services_identifies
              historique := st.conversationState.historique ++
                ["Clarification: " ++ st.clarificationResponse] }
            clarificationResponse := ""
            activeStep := 2 }, [Call.clarifyCall req])

/-- `handleAlternatives`: purely informational; only the `alternatives`
display list (and the error message) can change. -/
def handleAlternatives (st : AppState) (resp : Except String (List String)) :
    AppState × List Call :=
  match st.decomposition with
  | none => ({ st with error := some "TypeError: decomposition is null" }, [])
  | some _ =>
    match resp with
    | .error msg => ({ st with error := some msg }, [Call.alternativesCall])
    | .ok alts => ({ st with error := none, alternatives := alts }, [Call.alternativesCall])

/-- The Option 3 button (`Générer l'Intent avec services validés`): disabled
while `validatedServices` is empty, otherwise `generateIntent()` with the
accumulated conversation state. -/
def finishOption3 (st : AppState) (resp : Except String Intent) :
    AppState × List Call :=
  if st.validatedServices.length = 0 then (st, [])
  else generateIntentFn st none none resp

/-- `setSelectedServices({...selectedServices, [nom]: v})` from the candidate
radio buttons. -/
def setPick (st : AppState) (nom v : String) : AppState :=
  { st with selectedServices := objInsert st.selectedServices nom v }

/-- `resetWorkflow` restores every piece of component state to its initial
value. -/
def resetWorkflow : AppState := initState

/-- A user-triggerable event of the component, with the remote responses the
triggered handler will consume. -/
inductive Action
  | input (s : String)
  | clarifText (s : String)
  | pick (nom v : String)
  | dismiss
  | classifyA (r : Except String Classification) (rd : Except String Decomposition)
  | validateA (rg : Except String Intent)
  | clarifyA (r : Except String ClarifyResponse)
  | alternativesA (r : Except String (List String))
  | finishA (rg : Except String Intent)
  | resetA

/-- The component's transition function: one user event, the successor state
and the gateway calls issued. -/
def step (st : AppState) : Action → AppState × List Call
  | .input s => ({ st with userInput := s }, [])
  | .clarifText s => ({ st with clarificationResponse := s }, [])
  | .pick nom v => (setPick st nom v, [])
  | .dismiss => ({ st with error := none }, [])
  | .classifyA r rd => handleClassification st r rd
  | .validateA rg => handleValidation st rg
  | .clarifyA r => handleClarification st r
  | .alternativesA r => handleAlternatives st r
  | .finishA rg => finishOption3 st rg
  | .resetA => (resetWorkflow, [])

/-- States reachable from the initial component state. -/
inductive Reachable : AppState → Prop
  | start : Reachable initState
  | next : ∀ {st : AppState} (a : Action), Reachable st → Reachable (step st a).1

/-! ### Concrete candidates, services, and runs used in the counterexamples -/

def candA : ServiceCandidate :=
  { service_id := "ca", name := "CandA", description := "first candidate for A"
    score := Rat.mk' 7 10 (by decide) (by decide), dependencies := [] }

def candB : ServiceCandidate :=
  { service_id := "cb", name := "CandB", description := "first candidate for B"
    score := Rat.mk' 3 5 (by decide) (by decide), dependencies := [] }

def camOld : ServiceCandidate :=
  { service_id := "old", name := "CamOld", description := "round-one camera candidate"
    score := Rat.mk' 9 10 (by decide) (by decide), dependencies := [] }

def camNew : ServiceCandidate :=
  { service_id := "new", name := "CamNew", description := "round-two camera candidate"
    score := Rat.mk' 4 5 (by decide) (by decide), dependencies := [] }

def svcA : IdentifiedService := { nom := "A", raison := "needs A", proprietes := [] }

def svcB : IdentifiedService := { nom := "B", raison := "needs B", proprietes := [] }

def svcCamera : IdentifiedService :=
  { nom := "Camera", raison := "video surveillance", proprietes := [] }

def svcAlert : IdentifiedService :=
  { nom := "Alert", raison := "sms alerting", proprietes := [] }

def intentEx : Intent := { name := "intent-1", characteristic := [] }

def telecomOk : Classification := { type := ClassType.TELECOM, message := "ok" }

/-- Run for claim C1: two services `A`, `B`; `A` is validated in round one;
a clarification round with no pre-validated names clears the picks; the user
picks only `B` and validates again. -/
def c1_d1 : Decomposition :=
  { services_identifies := [svcA, svcB]
    candidates := [("A", [candA]), ("B", [candB])] }

def c1_clar : ClarifyResponse :=
  { services_identifies := [svcA, svcB]
    candidates := [("A", [candA]), ("B", [candB])]
    pre_validated_services := [] }

def c1_s3 : AppState :=
  (step (step initState (.input "req")).1 (.classifyA (.ok telecomOk) (.ok c1_d1))).1

def c1_s4 : AppState := (step c1_s3 (.pick "A" "ca")).1

def c1_s5 : AppState := (step c1_s4 (.validateA (.error "unused"))).1

def c1_s6 : AppState := (step c1_s5 (.clarifText "more detail")).1

def c1_s7 : AppState := (step c1_s6 (.clarifyA (.ok c1_clar))).1

def c1_s8 : AppState := (step c1_s7 (.pick "B" "cb")).1

def c1_s9 : AppState := (step c1_s8 (.validateA (.error "unused"))).1

/-- Run for claims C2 and C3: `Camera` validated with candidate id `old` in
round one; the clarification response pre-validates `Camera` but its new
catalog only contains the candidate id `new`. -/
def cam_d1 : Decomposition :=
  { services_identifies := [svcCamera, svcAlert]
    candidates := [("Camera", [camOld]), ("Alert", [])] }

def cam_clar : ClarifyResponse :=
  { services_identifies := [svcCamera]
    candidates := [("Camera", [camNew])]
    pre_validated_services := ["Camera"] }

def cam_s3 : AppState :=
  (step (step initState (.input "cam")).1 (.classifyA (.ok telecomOk) (.ok cam_d1))).1

def cam_s4 : AppState := (step cam_s3 (.pick "Camera" "old")).1

def cam_s5 : AppState := (step cam_s4 (.validateA (.error "unused"))).1

def cam_s6 : AppState := (step cam_s5 (.clarifText "indoor only")).1

def cam_s7 : AppState := (step cam_s6 (.clarifyA (.ok cam_clar))).1

def cam_s8p : AppState × List Call := step cam_s7 (.validateA (.ok intentEx))

/-- Run for claim C4: a single service `A`, fully picked, so validation
reaches the generate call, which fails. -/
def c4_d : Decomposition :=
  { services_identifies := [svcA], candidates := [("A", [candA])] }

def c4_s3 : AppState :=
  (step (step initState (.input "r")).1 (.classifyA (.ok telecomOk) (.ok c4_d))).1

def c4_s4 : AppState := (step c4_s3 (.pick "A" "ca")).1

def c4_s5p : AppState × List Call := step c4_s4 (.validateA (.error "boom"))

/-- Run for claim C5: a classify call that returns GREETING. -/
def c5_p : AppState × List Call :=
  step (step initState (.input "Hello")).1
    (.classifyA (.ok { type := ClassType.GREETING, message := "Bonjour" }) (.error "unused"))

/-! ### Association-list lemmas -/

theorem alookup_append {α : Type} (l m : List (String × α)) (k : String) :
    alookup (l ++ m) k =
      match alookup l k with
      | some v => some v
      | none => alookup m k := by
  induction l with
  | nil => simp [alookup]
  | cons p r ih =>
    obtain ⟨a, b⟩ := p
    by_cases h : a = k <;> simp [alookup, h, ih]

theorem alookup_eq_none {α : Type} (m : List (String × α)) (k : String)
    (h : k ∉ m.map Prod.fst) : alookup m k = none := by
  induction m with
  | nil => rfl
  | cons p r ih =>
    obtain ⟨a, b⟩ := p
    simp only [List.map_cons, List.mem_cons] at h
    push_neg at h
    simp [alookup, Ne.symm h.1, ih h.2]

theorem alookup_mapOverwrite {α : Type} (m : List (String × α)) (k : String)
    (v : α) (q : String) :
    alookup (m.map (fun p => if p.1 = k then (k, v) else p)) q =
      if q = k then (if (alookup m k).isSome then some v else none)
      else alookup m q := by
  induction m with
  | nil => simp [alookup]
  | cons p r ih =>
    obtain ⟨a, b⟩ := p
    have hmap : ((a, b) :: r).map (fun p => if p.1 = k then (k, v) else p)
        = (if a = k then (k, v) else (a, b)) ::
            r.map (fun p => if p.1 = k then (k, v) else p) := rfl
    rw [hmap]
    by_cases hak : a = k
    · rw [if_pos hak]
      subst hak
      by_cases hq : q = a
      · subst hq
        simp [alookup]
      · simp [alookup, hq, Ne.symm hq, ih]
    · rw [if_neg hak]
      by_cases haq : a = q
      · subst haq
        simp [alookup, hak, Ne.symm hak]
      · simp [alookup, haq, hak, ih]

theorem alookup_objInsert {α : Type} (m : List (String × α)) (k : String)
    (v : α) (q : String) :
    alookup (objInsert m k v) q = if q = k then some v else alookup m q := by
  unfold objInsert
  by_cases h : (alookup m k).isSome
  · simp [h, alookup_mapOverwrite]
  · rw [if_neg h, alookup_append]
    by_cases hq : q = k
    · subst hq
      simp only [Option.not_isSome_iff_eq_none] at h
      simp [h, alookup]
    · cases halq : alookup m q <;> simp [alookup, hq, Ne.symm hq]

/-! ### Lemmas about the validation-time selection construction -/

theorem resolve_fold_lookup (cat : Catalog) (picks : Picks) :
    ∀ (acc : Validated) (nom : String),
      (picks.map Prod.fst).Nodup →
      (∀ m ∈ picks.map Prod.fst, alookup acc m = none) →
      alookup (picks.foldl (resolveStep cat) acc) nom =
        match alookup picks nom with
        | some sid => findCand cat nom sid
        | none => alookup acc nom := by
  induction picks with
  | nil => intro acc nom _ _; rfl
  | cons p rest ih =>
    obtain ⟨k, sid⟩ := p
    intro acc nom hnd hacc
    simp only [List.map_cons, List.nodup_cons] at hnd
    obtain ⟨hknot, hndr⟩ := hnd
    have hstep : ∀ q, q ≠ k →
        alookup (resolveStep cat acc (k, sid)) q = alookup acc q := by
      intro q hq
      unfold resolveStep
      cases hc : findCand cat k sid with
      | none => rfl
      | some c => simp [alookup_objInsert, hq]
    have hacc' : ∀ m ∈ rest.map Prod.fst,
        alookup (resolveStep cat acc (k, sid)) m = none := by
      intro m hm
      have hmk : m ≠ k := fun h => hknot (h ▸ hm)
      rw [hstep m hmk]
      exact hacc m (List.mem_cons_of_mem _ hm)
    have hfold : ((k, sid) :: rest).foldl (resolveStep cat) acc
        = rest.foldl (resolveStep cat) (resolveStep cat acc (k, sid)) := rfl
    rw [hfold, ih (resolveStep cat acc (k, sid)) nom hndr hacc']
    by_cases hkn : k = nom
    · subst hkn
      have hrest : alookup rest k = none :=
        alookup_eq_none rest k hknot
      have hl : alookup ((k, sid) :: rest) k = some sid := by simp [alookup]
      rw [hrest, hl]
      show alookup (resolveStep cat acc (k, sid)) k = findCand cat k sid
      unfold resolveStep
      cases hc : findCand cat k sid with
      | none =>
        exact hacc k (by simp)
      | some c => simp [alookup_objInsert]
    · have hl : alookup ((k, sid) :: rest) nom = alookup rest nom := by
        simp [alookup, hkn]
      rw [hl]
      cases hr : alookup rest nom with
      | some s => rfl
      | none => exact hstep nom (fun h => hkn h.symm)

theorem resolve_lookup (picks : Picks) (cat : Catalog) (nom : String)
    (h : (picks.map Prod.fst).Nodup) :
    alookup (resolve picks cat) nom =
      match alookup picks nom with
      | some sid => findCand cat nom sid
      | none => none := by
  have := resolve_fold_lookup cat picks [] nom h (by intro m _; rfl)
  rw [resolve, this]
  cases alookup picks nom <;> rfl

theorem resolve_fold_absent (cat : Catalog) (picks : Picks) :
    ∀ (acc : Validated) (nom : String), alookup picks nom = none →
      alookup (picks.foldl (resolveStep cat) acc) nom = alookup acc nom := by
  induction picks with
  | nil => intro acc nom _; rfl
  | cons p rest ih =>
    obtain ⟨k, sid⟩ := p
    intro acc nom hnone
    have hkn : ¬k = nom := by
      intro h
      simp [alookup, h] at hnone
    have hrest : alookup rest nom = none := by
      simpa [alookup, hkn] using hnone
    have hfold : ((k, sid) :: rest).foldl (resolveStep cat) acc
        = rest.foldl (resolveStep cat) (resolveStep cat acc (k, sid)) := rfl
    rw [hfold, ih _ nom hrest]
    unfold resolveStep
    cases hc : findCand cat k sid with
    | none => rfl
    | some c =>
      have hnk : ¬nom = k := fun h => hkn h.symm
      simp [alookup_objInsert, hnk]

theorem resolve_absent (picks : Picks) (cat : Catalog) (nom : String)
    (h : alookup picks nom = none) :
    alookup (resolve picks cat) nom = none :=
  resolve_fold_absent cat picks [] nom h

theorem resolve_fold_filter (cat : Catalog) (picks : Picks) :
    ∀ acc : Validated,
      picks.foldl (resolveStep cat) acc =
        (picks.filter (fun p => (alookup cat p.1).isSome)).foldl
          (resolveStep cat) acc := by
  induction picks with
  | nil => intro acc; rfl
  | cons p rest ih =>
    obtain ⟨k, sid⟩ := p
    intro acc
    by_cases h : (alookup cat k).isSome
    · have hf : ((k, sid) :: rest).filter (fun p => (alookup cat p.1).isSome)
          = (k, sid) :: rest.filter (fun p => (alookup cat p.1).isSome) := by
        simp [List.filter_cons, h]
      rw [hf]
      exact ih (resolveStep cat acc (k, sid))
    · have hcat : alookup cat k = none := by
        simpa [Option.not_isSome_iff_eq_none] using h
      have hstep : resolveStep cat acc (k, sid) = acc := by
        unfold resolveStep
        simp [findCand, hcat]
      have hf : ((k, sid) :: rest).filter (fun p => (alookup cat p.1).isSome)
          = rest.filter (fun p => (alookup cat p.1).isSome) := by
        simp [List.filter_cons, h]
      calc ((k, sid) :: rest).foldl (resolveStep cat) acc
          = rest.foldl (resolveStep cat) (resolveStep cat acc (k, sid)) := rfl
        _ = rest.foldl (resolveStep cat) acc := by rw [hstep]
        _ = _ := by rw [hf, ih acc]

/-! ### Lemmas about the clarification pre-fill -/

theorem preSelectStep_eq (valides : Validated) (cat : Catalog) (acc : Picks)
    (nom : String) :
    preSelectStep valides cat acc nom =
      match preVal valides cat nom with
      | some v => objInsert acc nom v
      | none => acc := by
  unfold preSelectStep preVal
  cases hv : alookup valides nom with
  | some c => rfl
  | none => cases hc : (alookup cat nom).bind List.head? <;> rfl

theorem preSelect_fold_lookup (valides : Validated) (cat : Catalog)
    (pvs : List String) :
    ∀ (acc : Picks) (nom : String),
      (∀ m, alookup acc m = none ∨ alookup acc m = preVal valides cat m) →
      alookup (pvs.foldl (preSelectStep valides cat) acc) nom =
        if nom ∈ pvs then preVal valides cat nom else alookup acc nom := by
  induction pvs with
  | nil => intro acc nom _; simp
  | cons p rest ih =>
    intro acc nom hacc
    have hstep : ∀ q, alookup (preSelectStep valides cat acc p) q =
        if q = p then
          (match preVal valides cat p with
           | some v => some v
           | none => alookup acc p)
        else alookup acc q := by
      intro q
      rw [preSelectStep_eq]
      cases hv : preVal valides cat p with
      | some v => simp [alookup_objInsert]
      | none =>
        by_cases hq : q = p <;> simp [hq]
    have hacc' : ∀ m, alookup (preSelectStep valides cat acc p) m = none ∨
        alookup (preSelectStep valides cat acc p) m = preVal valides cat m := by
      intro m
      rw [hstep m]
      by_cases hm : m = p
      · subst hm
        simp only [if_pos rfl]
        cases hv : preVal valides cat m with
        | some v => right; rfl
        | none => simpa [hv] using hacc m
      · simp only [if_neg hm]
        exact hacc m
    have hfold : (p :: rest).foldl (preSelectStep valides cat) acc
        = rest.foldl (preSelectStep valides cat) (preSelectStep valides cat acc p) := rfl
    rw [hfold, ih _ nom hacc']
    by_cases hr : nom ∈ rest
    · simp [hr, List.mem_cons]
    · rw [if_neg hr, hstep nom]
      by_cases hp : nom = p
      · subst hp
        simp only [List.mem_cons, true_or, if_pos rfl, if_pos (Or.inl rfl)]
        cases hv : preVal valides cat nom with
        | some v => rfl
        | none =>
          rcases hacc nom with h | h
          · simp [h]
          · simp [h, hv]
      · have : ¬nom ∈ p :: rest := by
          simp [List.mem_cons, hp, hr]
        simp [this, hp]

theorem preSelect_lookup (pvs : List String) (valides : Validated)
    (cat : Catalog) (nom : String) :
    alookup (preSelect pvs valides cat) nom =
      if nom ∈ pvs then preVal valides cat nom else none := by
  have := preSelect_fold_lookup valides cat pvs [] nom (by intro m; left; rfl)
  rw [preSelect, this]
  by_cases hm : nom ∈ pvs
  · rw [if_pos hm, if_pos hm]
  · rw [if_neg hm, if_neg hm]; rfl

/-! ### Handler characterizations -/

theorem gen_err (st : AppState) (sv : Option Validated)
    (si : Option (List IdentifiedService)) (m : String) :
    generateIntentFn st sv si (.error m) =
      ({ st with error := some m },
        [Call.generate
          { services_valides := sv.getD st.conversationState.services_valides
            services_identifies := si.getD st.conversationState.services_identifies
            user_request_original := st.conversationState.user_request_original }]) := rfl

theorem gen_ok (st : AppState) (sv : Option Validated)
    (si : Option (List IdentifiedService)) (i : Intent) :
    generateIntentFn st sv si (.ok i) =
      ({ st with error := none, finalIntent := some i, activeStep := 4 },
        [Call.generate
          { services_valides := sv.getD st.conversationState.services_valides
            services_identifies := si.getD st.conversationState.services_identifies
            user_request_original := st.conversationState.user_request_original }]) := rfl

theorem gen_conversation (st : AppState) (sv : Option Validated)
    (si : Option (List IdentifiedService)) (rg : Except String Intent) :
    (generateIntentFn st sv si rg).1.conversationState = st.conversationState ∧
      (generateIntentFn st sv si rg).1.validatedServices = st.validatedServices ∧
      (generateIntentFn st sv si rg).1.selectedServices = st.selectedServices := by
  cases rg <;> exact ⟨rfl, rfl, rfl⟩

theorem validation_emptyPicks (st : AppState) (rg : Except String Intent)
    (h : st.selectedServices = []) :
    handleValidation st rg =
      ({ st with error := some "Veuillez sélectionner au moins un service" }, []) := by
  unfold handleValidation
  rw [h]
  rfl

theorem validation_noDecomp (st : AppState) (rg : Except String Intent)
    (h1 : st.selectedServices ≠ []) (h2 : st.decomposition = none) :
    handleValidation st rg =
      ({ st with error := some "TypeError: decomposition is null" }, []) := by
  unfold handleValidation
  rw [if_neg (by simpa [List.length_eq_zero] using h1), h2]

theorem validation_incomplete (st : AppState) (rg : Except String Intent)
    (d : Decomposition) (h1 : st.selectedServices ≠ [])
    (hd : st.decomposition = some d)
    (hc : isComplete d.services_identifies st.selectedServices = false) :
    handleValidation st rg =
      ({ st with
          error := none
          conversationState := { st.conversationState with
            services_valides := resolve st.selectedServices d.candidates
            services_identifies := d.services_identifies }
          validatedServices := (resolve st.selectedServices d.candidates).map Prod.fst
          activeStep := 3 }, []) := by
  unfold handleValidation
  rw [if_neg (by simpa [List.length_eq_zero] using h1), hd]
  simp only [hc]
  rfl

theorem validation_complete (st : AppState) (rg : Except String Intent)
    (d : Decomposition) (h1 : st.selectedServices ≠ [])
    (hd : st.decomposition = some d)
    (hc : isComplete d.services_identifies st.selectedServices = true) :
    handleValidation st rg =
      generateIntentFn
        { st with
          error := none
          conversationState := { st.conversationState with
            services_valides := resolve st.selectedServices d.candidates
            services_identifies := d.services_identifies }
          validatedServices := (resolve st.selectedServices d.candidates).map Prod.fst }
        (some (resolve st.selectedServices d.candidates))
        (some d.services_identifies) rg := by
  unfold handleValidation
  rw [if_neg (by simpa [List.length_eq_zero] using h1), hd]
  simp only [hc]
  rfl

theorem clarification_blank (st : AppState) (r : Except String ClarifyResponse)
    (h : jsTrim st.clarificationResponse = "") :
    handleClarification st r =
      ({ st with error := some "Veuillez répondre à la question" }, []) := by
  unfold handleClarification
  rw [if_pos h]

theorem clarification_noDecomp (st : AppState) (r : Except String ClarifyResponse)
    (h1 : jsTrim st.clarificationResponse ≠ "") (h2 : st.decomposition = none) :
    handleClarification st r =
      ({ st with error := some "TypeError: decomposition is null" }, []) := by
  unfold handleClarification
  rw [if_neg h1, h2]

theorem clarification_err (st : AppState) (d : Decomposition) (m : String)
    (h1 : jsTrim st.clarificationResponse ≠ "") (hd : st.decomposition = some d) :
    handleClarification st (.error m) =
      ({ st with error := some m }, [Call.clarifyCall (clarReqOf st d)]) := by
  unfold handleClarification
  rw [if_neg h1, hd]

theorem clarification_ok (st : AppState) (d : Decomposition)
    (data : ClarifyResponse)
    (h1 : jsTrim st.clarificationResponse ≠ "") (hd : st.decomposition = some d) :
    handleClarification st (.ok data) =
      ({ st with
          error := none
          decomposition := some
            { services_identifies := data.services_identifies
              candidates := data.candidates }
          selectedServices :=
            if 0 < data.pre_validated_services.length then
              preSelect data.pre_validated_services
                st.conversationState.services_valides data.candidates
            else []
          conversationState := { st.conversationState with
            services_identifies := data.services_identifies
            historique := st.conversationState.historique ++
              ["Clarification: " ++ st.clarificationResponse] }
          clarificationResponse := ""
          activeStep := 2 }, [Call.clarifyCall (clarReqOf st d)]) := by
  unfold handleClarification
  rw [if_neg h1, hd]

theorem classification_blank (st : AppState) (r : Except String Classification)
    (rd : Except String Decomposition) (h : jsTrim st.userInput = "") :
    handleClassification st r rd =
      ({ st with error := some "Veuillez entrer une demande" }, []) := by
  unfold handleClassification
  rw [if_pos h]

theorem classification_err (st : AppState) (m : String)
    (rd : Except String Decomposition) (h : jsTrim st.userInput ≠ "") :
    handleClassification st (.error m) rd =
      ({ st with error := some m }, [Call.classify]) := by
  unfold handleClassification
  rw [if_neg h]

theorem classification_nonTelecom (st : AppState) (c : Classification)
    (rd : Except String Decomposition) (h : jsTrim st.userInput ≠ "")
    (ht : c.type ≠ ClassType.TELECOM) :
    handleClassification st (.ok c) rd =
      ({ st with error := none, classification := some c, activeStep := 1 },
        [Call.classify]) := by
  unfold handleClassification
  rw [if_neg h]
  simp only [if_neg ht]

theorem classification_telecom_decompErr (st : AppState) (c : Classification)
    (m : String) (h : jsTrim st.userInput ≠ "")
    (ht : c.type = ClassType.TELECOM) :
    handleClassification st (.ok c) (.error m) =
      ({ st with error := some m, classification := some c },
        [Call.classify, Call.decompose]) := by
  unfold handleClassification
  rw [if_neg h]
  simp only [if_pos ht]
  rfl

theorem classification_telecom_decompOk (st : AppState) (c : Classification)
    (d2 : Decomposition) (h : jsTrim st.userInput ≠ "")
    (ht : c.type = ClassType.TELECOM) :
    handleClassification st (.ok c) (.ok d2) =
      ({ st with
          error := none
          classification := some c
          decomposition := some d2
          conversationState := { st.conversationState with
            user_request_original := st.userInput
            services_identifies := d2.services_identifies
            historique := st.conversationState.historique ++
              ["Demande: " ++ st.userInput] }
          activeStep := 2 }, [Call.classify, Call.decompose]) := by
  unfold handleClassification
  rw [if_neg h]
  simp only [if_pos ht]
  rfl

theorem alternatives_noDecomp (st : AppState) (r : Except String (List String))
    (h : st.decomposition = none) :
    handleAlternatives st r =
      ({ st with error := some "TypeError: decomposition is null" }, []) := by
  unfold handleAlternatives
  rw [h]

theorem alternatives_err (st : AppState) (d : Decomposition) (m : String)
    (hd : st.decomposition = some d) :
    handleAlternatives st (.error m) =
      ({ st with error := some m }, [Call.alternativesCall]) := by
  unfold handleAlternatives
  rw [hd]

theorem alternatives_ok (st : AppState) (d : Decomposition) (alts : List String)
    (hd : st.decomposition = some d) :
    handleAlternatives st (.ok alts) =
      ({ st with error := none, alternatives := alts }, [Call.alternativesCall]) := by
  unfold handleAlternatives
  rw [hd]

theorem finish_disabled (st : AppState) (rg : Except String Intent)
    (h : st.validatedServices = []) :
    finishOption3 st rg = (st, []) := by
  unfold finishOption3
  rw [h]
  rfl

theorem finish_enabled (st : AppState) (rg : Except String Intent)
    (h : st.validatedServices ≠ []) :
    finishOption3 st rg = generateIntentFn st none none rg := by
  unfold finishOption3
  rw [if_neg (by simpa [List.length_eq_zero] using h)]

/-! ### Frame lemmas -/

theorem validation_historique (st : AppState) (rg : Except String Intent) :
    (handleValidation st rg).1.conversationState.historique =
      st.conversationState.historique := by
  by_cases h1 : st.selectedServices = []
  · rw [validation_emptyPicks st rg h1]
  · cases hd : st.decomposition with
    | none => rw [validation_noDecomp st rg h1 hd]
    | some d =>
      cases hc : isComplete d.services_identifies st.selectedServices with
      | false => rw [validation_incomplete st rg d h1 hd hc]
      | true =>
        rw [validation_complete st rg d h1 hd hc]
        obtain ⟨hcv, _, _⟩ := gen_conversation _ _ _ rg
        rw [hcv]

theorem alternatives_frame (st : AppState) (r : Except String (List String)) :
    (handleAlternatives st r).1.conversationState = st.conversationState ∧
      (handleAlternatives st r).1.activeStep = st.activeStep := by
  cases hd : st.decomposition with
  | none => rw [alternatives_noDecomp st r hd]; exact ⟨rfl, rfl⟩
  | some d =>
    cases r with
    | error m => rw [alternatives_err st d m hd]; exact ⟨rfl, rfl⟩
    | ok alts => rw [alternatives_ok st d alts hd]; exact ⟨rfl, rfl⟩

theorem finish_conversation (st : AppState) (rg : Except String Intent) :
    (finishOption3 st rg).1.conversationState = st.conversationState := by
  by_cases hv : st.validatedServices = []
  · rw [finish_disabled st rg hv]
  · rw [finish_enabled st rg hv]
    exact (gen_conversation st none none rg).1

theorem clarify_err_frame (st : AppState) (m : String) :
    (handleClarification st (.error m)).1.conversationState = st.conversationState ∧
      (handleClarification st (.error m)).1.activeStep = st.activeStep ∧
      (handleClarification st (.error m)).1.selectedServices = st.selectedServices := by
  by_cases hb : jsTrim st.clarificationResponse = ""
  · rw [clarification_blank st _ hb]; exact ⟨rfl, rfl, rfl⟩
  · cases hd : st.decomposition with
    | none => rw [clarification_noDecomp st _ hb hd]; exact ⟨rfl, rfl, rfl⟩
    | some d => rw [clarification_err st d m hb hd]; exact ⟨rfl, rfl, rfl⟩

theorem classify_err_frame (st : AppState) (m : String)
    (rd : Except String Decomposition) :
    (handleClassification st (.error m) rd).1.conversationState = st.conversationState ∧
      (handleClassification st (.error m) rd).1.activeStep = st.activeStep := by
  by_cases hb : jsTrim st.userInput = ""
  · rw [classification_blank st _ rd hb]; exact ⟨rfl, rfl⟩
  · rw [classification_err st m rd hb]; exact ⟨rfl, rfl⟩

theorem classify_decompErr_frame (st : AppState) (c : Classification) (m : String)
    (ht : c.type = ClassType.TELECOM) :
    (handleClassification st (.ok c) (.error m)).1.conversationState = st.conversationState ∧
      (handleClassification st (.ok c) (.error m)).1.activeStep = st.activeStep := by
  by_cases hb : jsTrim st.userInput = ""
  · rw [classification_blank st _ _ hb]; exact ⟨rfl, rfl⟩
  · rw [classification_telecom_decompErr st c m hb ht]; exact ⟨rfl, rfl⟩

/-! ### Claim theorems -/

/-- Claim C7: the clarify operation sends the clarification contract with all
six request fields: the clarification text, the validated service names, the
refused service names, the original request, the full validated-selection
data, and the previous round's identified services. -/
theorem clarify_sends_six_fields (st : AppState) (d : Decomposition)
    (r : Except String ClarifyResponse)
    (h1 : jsTrim st.clarificationResponse ≠ "") (hd : st.decomposition = some d) :
    (step st (.clarifyA r)).2 =
      [Call.clarifyCall
        { user_clarification := st.clarificationResponse
          services_valides_noms := st.validatedServices
          services_refuses := refusedOf d st.selectedServices
          original_request := st.userInput
          services_valides_data := st.conversationState.services_valides
          services_identifies_precedents := d.services_identifies }] := by
  show (handleClarification st r).2 = _
  cases r with
  | error m => rw [clarification_err st d m h1 hd]; rfl
  | ok data => rw [clarification_ok st d data h1 hd]; rfl

/-- Witness for C7 at the concrete clarification state of the `cam` run. -/
theorem clarify_sends_six_fields_witness :
    jsTrim cam_s6.clarificationResponse ≠ "" ∧
      cam_s6.decomposition = some cam_d1 ∧
      (step cam_s6 (.clarifyA (.ok cam_clar))).2 =
        [Call.clarifyCall
          { user_clarification := cam_s6.clarificationResponse
            services_valides_noms := cam_s6.validatedServices
            services_refuses := refusedOf cam_d1 cam_s6.selectedServices
            original_request := cam_s6.userInput
            services_valides_data := cam_s6.conversationState.services_valides
            services_identifies_precedents := cam_d1.services_identifies }] :=
  ⟨by decide, by decide,
    clarify_sends_six_fields cam_s6 cam_d1 (.ok cam_clar) (by decide) (by decide)⟩

/-- Claim C8: for every picks mapping with distinct names and every catalog,
the selection resolution contains exactly the entries whose name has a pick
and whose picked id occurs in that round's catalog list for that name, each
mapped to the full matching candidate; picks whose id is not found are
silently dropped. -/
theorem resolve_exact_characterization (picks : Picks) (cat : Catalog)
    (h : (picks.map Prod.fst).Nodup) :
    ∀ nom, alookup (resolve picks cat) nom =
      (alookup picks nom).bind (fun sid =>
        (alookup cat nom).bind (fun cs =>
          cs.find? (fun c => c.service_id == sid))) := by
  intro nom
  rw [resolve_lookup picks cat nom h]
  cases alookup picks nom <;> rfl

/-- Witness for C8 at a concrete one-pick catalog. -/
theorem resolve_exact_characterization_witness :
    (([("A", "ca")] : Picks).map Prod.fst).Nodup ∧
      alookup (resolve [("A", "ca")] [("A", [candA])]) "A" =
        (alookup ([("A", "ca")] : Picks) "A").bind (fun sid =>
          (alookup ([("A", [candA])] : Catalog) "A").bind (fun cs =>
            cs.find? (fun c => c.service_id == sid))) :=
  ⟨by decide,
    resolve_exact_characterization [("A", "ca")] [("A", [candA])] (by decide) "A"⟩

/-- Claim C9: in every reachable state the displayed validated-service name
list equals the keys of the conversation state's validated selection: both
start empty, are updated together only by validation, and are cleared
together only by reset. -/
theorem validatedServices_eq_keys (st : AppState) (h : Reachable st) :
    st.validatedServices = st.conversationState.services_valides.map Prod.fst := by
  induction h with
  | start => rfl
  | @next st a hr ih =>
    cases a with
    | input s => exact ih
    | clarifText s => exact ih
    | pick nom v => exact ih
    | dismiss => exact ih
    | resetA => rfl
    | classifyA r rd =>
      show (handleClassification st r rd).1.validatedServices =
        (handleClassification st r rd).1.conversationState.services_valides.map Prod.fst
      by_cases hb : jsTrim st.userInput = ""
      · rw [classification_blank st r rd hb]; exact ih
      · cases r with
        | error m => rw [classification_err st m rd hb]; exact ih
        | ok c =>
          by_cases ht : c.type = ClassType.TELECOM
          · cases rd with
            | error m => rw [classification_telecom_decompErr st c m hb ht]; exact ih
            | ok d2 => rw [classification_telecom_decompOk st c d2 hb ht]; exact ih
          · rw [classification_nonTelecom st c rd hb ht]; exact ih
    | validateA rg =>
      show (handleValidation st rg).1.validatedServices =
        (handleValidation st rg).1.conversationState.services_valides.map Prod.fst
      by_cases h1 : st.selectedServices = []
      · rw [validation_emptyPicks st rg h1]; exact ih
      · cases hd : st.decomposition with
        | none => rw [validation_noDecomp st rg h1 hd]; exact ih
        | some d =>
          cases hc : isComplete d.services_identifies st.selectedServices with
          | false => rw [validation_incomplete st rg d h1 hd hc]
          | true =>
            rw [validation_complete st rg d h1 hd hc]
            obtain ⟨hcv, hvn, _⟩ := gen_conversation _ _ _ rg
            rw [hcv, hvn]
    | clarifyA r =>
      show (handleClarification st r).1.validatedServices =
        (handleClarification st r).1.conversationState.services_valides.map Prod.fst
      by_cases hb : jsTrim st.clarificationResponse = ""
      · rw [clarification_blank st r hb]; exact ih
      · cases hd : st.decomposition with
        | none => rw [clarification_noDecomp st r hb hd]; exact ih
        | some d =>
          cases r with
          | error m => rw [clarification_err st d m hb hd]; exact ih
          | ok data => rw [clarification_ok st d data hb hd]; exact ih
    | alternativesA r =>
      show (handleAlternatives st r).1.validatedServices =
        (handleAlternatives st r).1.conversationState.services_valides.map Prod.fst
      cases hd : st.decomposition with
      | none => rw [alternatives_noDecomp st r hd]; exact ih
      | some d =>
        cases r with
        | error m => rw [alternatives_err st d m hd]; exact ih
        | ok alts => rw [alternatives_ok st d alts hd]; exact ih
    | finishA rg =>
      show (finishOption3 st rg).1.validatedServices =
        (finishOption3 st rg).1.conversationState.services_valides.map Prod.fst
      by_cases hv : st.validatedServices = []
      · rw [finish_disabled st rg hv]; exact ih
      · rw [finish_enabled st rg hv]
        obtain ⟨hcv, hvn, _⟩ := gen_conversation st none none rg
        rw [hcv, hvn]; exact ih

/-- Witness for C9 at the initial state. -/
theorem validatedServices_eq_keys_witness :
    initState.validatedServices =
      initState.conversationState.services_valides.map Prod.fst :=
  validatedServices_eq_keys initState Reachable.start

/-- Claim C10: the validation-time selection construction is total even when a
picked service name has no catalog entry at all: the optional-chained lookup
yields no candidate, the entry is skipped, and the construction proceeds with
the remaining picks. -/
theorem resolve_skips_uncataloged (picks : Picks) (cat : Catalog) :
    resolve picks cat =
      resolve (picks.filter (fun p => (alookup cat p.1).isSome)) cat :=
  resolve_fold_filter cat picks []

/-- Counterexample to claim C1 as stated: service `A` is validated in round
one (`c1_s5` holds `candA` for it), the clarification round clears the picks,
the user re-picks only `B` (so `A` was neither re-picked nor refused by an
explicit user choice), and after the next validation the entry for `A` has
been dropped from the validated selection. -/
theorem c1_counterexample :
    alookup c1_s5.conversationState.services_valides "A" = some candA ∧
      alookup c1_s9.selectedServices "A" = none ∧
      alookup c1_s9.conversationState.services_valides "A" = none := by
  refine ⟨by decide, by decide, by decide⟩

/-- Claim C1 (amended): after any validation step the validated selection is
replaced wholesale by the resolution of this round's picks; a service name
validated in an earlier round keeps an entry only if it has a pick this round
(normally re-established by the clarify pre-fill), and any name without a
pick this round is dropped. -/
theorem validate_wholesale_replacement (st : AppState) (d : Decomposition)
    (rg : Except String Intent) (h1 : st.selectedServices ≠ [])
    (hd : st.decomposition = some d) :
    (step st (.validateA rg)).1.conversationState.services_valides =
        resolve st.selectedServices d.candidates ∧
      ∀ nom, alookup st.selectedServices nom = none →
        alookup (step st (.validateA rg)).1.conversationState.services_valides nom
          = none := by
  have hmain : (step st (.validateA rg)).1.conversationState.services_valides =
      resolve st.selectedServices d.candidates := by
    show (handleValidation st rg).1.conversationState.services_valides = _
    cases hc : isComplete d.services_identifies st.selectedServices with
    | false => rw [validation_incomplete st rg d h1 hd hc]
    | true =>
      rw [validation_complete st rg d h1 hd hc]
      obtain ⟨hcv, _, _⟩ := gen_conversation _ _ _ rg
      rw [hcv]
  refine ⟨hmain, fun nom hn => ?_⟩
  rw [hmain]
  exact resolve_absent _ _ _ hn

/-- Witness for C1 (amended) at the second validation of the `c1` run. -/
theorem validate_wholesale_replacement_witness :
    c1_s8.selectedServices ≠ [] ∧
      alookup c1_s8.selectedServices "A" = none ∧
      alookup (step c1_s8 (.validateA (.error "unused"))).1.conversationState.services_valides
        "A" = none :=
  ⟨by decide, by decide,
    (validate_wholesale_replacement c1_s8 c1_d1 (.error "unused")
      (by decide) (by decide)).2 "A" (by decide)⟩

/-- Counterexample to claim C2 as stated: in the `cam` run the stale pick
`Camera ↦ old` survives clarification while the new catalog only offers id
`new`; the completeness check still passes (every identified name has a
pick), generate is called and the workflow reaches INTENT_READY (step 4),
yet the post-merge validated selection is empty — not one entry per
identified name. -/
theorem c2_counterexample :
    cam_s8p.1.activeStep = 4 ∧
      cam_s8p.1.conversationState.services_valides = [] ∧
      cam_s8p.1.conversationState.services_identifies = [svcCamera] ∧
      cam_s8p.2 = [Call.generate
        { services_valides := []
          services_identifies := [svcCamera]
          user_request_original := "cam" }] := by
  refine ⟨by decide, by decide, by decide, by decide⟩

/-- Claim C2 (amended): the completeness check is computed from the picks,
not from the post-merge validated selection: it is true iff every name in the
latest identified-services list has a truthy pick.  When true, validation
issues the generate call with the resolved selection and on success
transitions directly to INTENT_READY (step 4), bypassing the clarification
state; when false it enters the clarification/alternatives state (step 3)
with no gateway call. -/
theorem validate_completeness_from_picks (st : AppState) (d : Decomposition)
    (i : Intent) (h1 : st.selectedServices ≠ [])
    (hd : st.decomposition = some d) :
    (isComplete d.services_identifies st.selectedServices = true →
      (step st (.validateA (.ok i))).1.activeStep = 4 ∧
        (step st (.validateA (.ok i))).1.finalIntent = some i ∧
        (step st (.validateA (.ok i))).2 =
          [Call.generate
            { services_valides := resolve st.selectedServices d.candidates
              services_identifies := d.services_identifies
              user_request_original := st.conversationState.user_request_original }]) ∧
    (isComplete d.services_identifies st.selectedServices = false →
      ∀ rg, (step st (.validateA rg)).1.activeStep = 3 ∧
        (step st (.validateA rg)).2 = []) := by
  constructor
  · intro hc
    have h := validation_complete st (.ok i) d h1 hd hc
    rw [gen_ok] at h
    show (handleValidation st (.ok i)).1.activeStep = 4 ∧
      (handleValidation st (.ok i)).1.finalIntent = some i ∧
      (handleValidation st (.ok i)).2 = _
    rw [h]
    exact ⟨rfl, rfl, rfl⟩
  · intro hc rg
    have h := validation_incomplete st rg d h1 hd hc
    show (handleValidation st rg).1.activeStep = 3 ∧ (handleValidation st rg).2 = []
    rw [h]
    exact ⟨rfl, rfl⟩

/-- Witness for C2 (amended) at the complete one-service `c4` run. -/
theorem validate_completeness_from_picks_witness :
    c4_s4.selectedServices ≠ [] ∧
      isComplete c4_d.services_identifies c4_s4.selectedServices = true ∧
      (step c4_s4 (.validateA (.ok intentEx))).1.activeStep = 4 :=
  ⟨by decide, by decide,
    ((validate_completeness_from_picks c4_s4 c4_d intentEx
      (by decide) (by decide)).1 (by decide)).1⟩

/-- Counterexample to claim C3 as stated: in the `cam` run the clarification
response pre-validates `Camera`, whose previously chosen candidate id `old`
does NOT exist in the new round's catalog (whose first candidate has id
`new`); the claim requires the pick to fall back to the catalog's first
candidate, but the code pre-fills the stale id `old`. -/
theorem c3_counterexample :
    alookup cam_s7.selectedServices "Camera" = some "old" ∧
      findCand cam_clar.candidates "Camera" "old" = none ∧
      ((alookup cam_clar.candidates "Camera").bind List.head?).map
        (fun c => c.service_id) = some "new" := by
  refine ⟨by decide, by decide, by decide⟩

/-- Claim C3 (amended): for a clarification response, each service named in
`pre_validated_services` is pre-filled with the already-validated candidate's
id whenever that name is present in the accumulated validated selection —
with no check that this id still exists in the new catalog; only names absent
from the validated selection fall back to the new catalog's first candidate
(no pick when that service has no candidate list); services not named start
with no pick. -/
theorem clarify_prefill_rule (st : AppState) (d : Decomposition)
    (data : ClarifyResponse)
    (h1 : jsTrim st.clarificationResponse ≠ "") (hd : st.decomposition = some d)
    (nom : String) :
    alookup (step st (.clarifyA (.ok data))).1.selectedServices nom =
      if nom ∈ data.pre_validated_services then
        preVal st.conversationState.services_valides data.candidates nom
      else none := by
  show alookup (handleClarification st (.ok data)).1.selectedServices nom = _
  rw [clarification_ok st d data h1 hd]
  show alookup
    (if 0 < data.pre_validated_services.length then
      preSelect data.pre_validated_services
        st.conversationState.services_valides data.candidates
     else []) nom = _
  by_cases hp : 0 < data.pre_validated_services.length
  · rw [if_pos hp, preSelect_lookup]
  · rw [if_neg hp]
    have hpv : data.pre_validated_services = [] :=
      List.length_eq_zero.mp (Nat.eq_zero_of_not_pos hp)
    simp [hpv, alookup]

/-- Witness for C3 (amended) at the `cam` clarification. -/
theorem clarify_prefill_rule_witness :
    jsTrim cam_s6.clarificationResponse ≠ "" ∧
      cam_s6.decomposition = some cam_d1 ∧
      alookup (step cam_s6 (.clarifyA (.ok cam_clar))).1.selectedServices "Camera" =
        if "Camera" ∈ cam_clar.pre_validated_services then
          preVal cam_s6.conversationState.services_valides cam_clar.candidates "Camera"
        else none :=
  ⟨by decide, by decide,
    clarify_prefill_rule cam_s6 cam_d1 cam_clar (by decide) (by decide) "Camera"⟩

/-- Counterexample to claim C4 as stated: in the `c4` run the validated
selection is empty before validation, validation reaches a failing generate
call (the error message surfaces and no workflow-step transition happens),
yet the conversation state has been mutated: `services_valides` now holds the
merged entry for `A`. -/
theorem c4_counterexample :
    c4_s4.conversationState.services_valides = [] ∧
      c4_s5p.1.error = some "boom" ∧
      c4_s5p.1.activeStep = 2 ∧
      c4_s5p.1.conversationState.services_valides = [("A", candA)] ∧
      c4_s5p.2 = [Call.generate
        { services_valides := [("A", candA)]
          services_identifies := [svcA]
          user_request_original := "r" }] := by
  refine ⟨by decide, by decide, by decide, by decide, by decide⟩

/-- Claim C4 (amended): errors in classify, decompose, clarify, alternatives,
and the standalone finish-generate leave the workflow step and the
conversation state unchanged (only the error message is set); validation is
the exception: it commits the resolved selection and the current round's
identified services to the conversation state before issuing the generate
call, so a failing generate leaves the workflow step unchanged but the
conversation state already updated with this round's merge. -/
theorem error_frame_discipline :
    (∀ (st : AppState) (d : Decomposition) (m : String),
      st.selectedServices ≠ [] → st.decomposition = some d →
      isComplete d.services_identifies st.selectedServices = true →
      (step st (.validateA (.error m))).1.activeStep = st.activeStep ∧
        (step st (.validateA (.error m))).1.error = some m ∧
        (step st (.validateA (.error m))).1.conversationState.services_valides =
          resolve st.selectedServices d.candidates ∧
        (step st (.validateA (.error m))).1.conversationState.services_identifies =
          d.services_identifies) ∧
    (∀ (st : AppState) (m : String) (rd : Except String Decomposition),
      (step st (.classifyA (.error m) rd)).1.conversationState =
          st.conversationState ∧
        (step st (.classifyA (.error m) rd)).1.activeStep = st.activeStep) ∧
    (∀ (st : AppState) (c : Classification) (m : String),
      c.type = ClassType.TELECOM →
      (step st (.classifyA (.ok c) (.error m))).1.conversationState =
          st.conversationState ∧
        (step st (.classifyA (.ok c) (.error m))).1.activeStep = st.activeStep) ∧
    (∀ (st : AppState) (m : String),
      (step st (.clarifyA (.error m))).1.conversationState = st.conversationState ∧
        (step st (.clarifyA (.error m))).1.activeStep = st.activeStep ∧
        (step st (.clarifyA (.error m))).1.selectedServices = st.selectedServices) ∧
    (∀ (st : AppState) (m : String),
      (step st (.alternativesA (.error m))).1.conversationState =
          st.conversationState ∧
        (step st (.alternativesA (.error m))).1.activeStep = st.activeStep) ∧
    (∀ (st : AppState) (m : String),
      (step st (.finishA (.error m))).1.conversationState = st.conversationState ∧
        (step st (.finishA (.error m))).1.activeStep = st.activeStep ∧
        (step st (.finishA (.error m))).1.finalIntent = st.finalIntent) := by
  refine ⟨?_, ?_, ?_, ?_, ?_, ?_⟩
  · intro st d m h1 hd hc
    have h := validation_complete st (.error m) d h1 hd hc
    rw [gen_err] at h
    show (handleValidation st (.error m)).1.activeStep = st.activeStep ∧
      (handleValidation st (.error m)).1.error = some m ∧
      (handleValidation st (.error m)).1.conversationState.services_valides = _ ∧
      (handleValidation st (.error m)).1.conversationState.services_identifies = _
    rw [h]
    exact ⟨rfl, rfl, rfl, rfl⟩
  · intro st m rd
    exact classify_err_frame st m rd
  · intro st c m ht
    exact classify_decompErr_frame st c m ht
  · intro st m
    exact clarify_err_frame st m
  · intro st m
    cases hd : st.decomposition with
    | none =>
      show (handleAlternatives st (.error m)).1.conversationState = _ ∧
        (handleAlternatives st (.error m)).1.activeStep = _
      rw [alternatives_noDecomp st _ hd]
      exact ⟨rfl, rfl⟩
    | some d =>
      show (handleAlternatives st (.error m)).1.conversationState = _ ∧
        (handleAlternatives st (.error m)).1.activeStep = _
      rw [alternatives_err st d m hd]
      exact ⟨rfl, rfl⟩
  · intro st m
    by_cases hv : st.validatedServices = []
    · show (finishOption3 st (.error m)).1.conversationState = _ ∧
        (finishOption3 st (.error m)).1.activeStep = _ ∧
        (finishOption3 st (.error m)).1.finalIntent = _
      rw [finish_disabled st _ hv]
      exact ⟨rfl, rfl, rfl⟩
    · show (finishOption3 st (.error m)).1.conversationState = _ ∧
        (finishOption3 st (.error m)).1.activeStep = _ ∧
        (finishOption3 st (.error m)).1.finalIntent = _
      rw [finish_enabled st _ hv, gen_err]
      exact ⟨rfl, rfl, rfl⟩

/-- Witness for C4 (amended): the validate-with-failing-generate component at
the concrete `c4` run. -/
theorem error_frame_discipline_witness :
    c4_s4.selectedServices ≠ [] ∧
      (step c4_s4 (.validateA (.error "boom"))).1.activeStep = c4_s4.activeStep ∧
      (step c4_s4 (.validateA (.error "boom"))).1.error = some "boom" :=
  ⟨by decide,
    (error_frame_discipline.1 c4_s4 c4_d "boom" (by decide) (by decide) (by decide)).1,
    (error_frame_discipline.1 c4_s4 c4_d "boom" (by decide) (by decide) (by decide)).2.1⟩

/-- Counterexample to claim C5 as stated: a classify call is issued (the call
list of the step is exactly the classify call) and yet the history is still
empty afterwards — the classify contract call appends no history entry. -/
theorem c5_counterexample :
    c5_p.2 = [Call.classify] ∧
      c5_p.1.conversationState.historique = [] := by
  refine ⟨by decide, by decide⟩

/-- Claim C5 (amended): of the five gateway calls, only a successful
decompose (reached through a TELECOM classification) and a successful clarify
append a history entry ("Demande: …" and "Clarification: …"); validate,
alternatives, finish-generate, and failing or non-TELECOM classify leave the
history unchanged; history only ever grows by appending and is cleared only
by reset. -/
theorem history_discipline :
    (∀ (st : AppState) (a : Action), a ≠ Action.resetA →
      ∃ s, (step st a).1.conversationState.historique =
        st.conversationState.historique ++ s) ∧
    (∀ (st : AppState) (rg : Except String Intent),
      (step st (.validateA rg)).1.conversationState.historique =
        st.conversationState.historique) ∧
    (∀ (st : AppState) (r : Except String (List String)),
      (step st (.alternativesA r)).1.conversationState.historique =
        st.conversationState.historique) ∧
    (∀ (st : AppState) (rg : Except String Intent),
      (step st (.finishA rg)).1.conversationState.historique =
        st.conversationState.historique) ∧
    (∀ (st : AppState) (m : String) (rd : Except String Decomposition),
      (step st (.classifyA (.error m) rd)).1.conversationState.historique =
        st.conversationState.historique) ∧
    (∀ (st : AppState) (c : Classification) (rd : Except String Decomposition),
      jsTrim st.userInput ≠ "" → c.type ≠ ClassType.TELECOM →
      (step st (.classifyA (.ok c) rd)).1.conversationState.historique =
        st.conversationState.historique) ∧
    (∀ (st : AppState) (c : Classification) (d2 : Decomposition),
      jsTrim st.userInput ≠ "" → c.type = ClassType.TELECOM →
      (step st (.classifyA (.ok c) (.ok d2))).1.conversationState.historique =
        st.conversationState.historique ++ ["Demande: " ++ st.userInput]) ∧
    (∀ (st : AppState) (d : Decomposition) (data : ClarifyResponse),
      jsTrim st.clarificationResponse ≠ "" → st.decomposition = some d →
      (step st (.clarifyA (.ok data))).1.conversationState.historique =
        st.conversationState.historique ++
          ["Clarification: " ++ st.clarificationResponse]) ∧
    (∀ st : AppState,
      (step st Action.resetA).1.conversationState.historique = []) := by
  have hval : ∀ (st : AppState) (rg : Except String Intent),
      (step st (.validateA rg)).1.conversationState.historique =
        st.conversationState.historique := fun st rg => validation_historique st rg
  have halt : ∀ (st : AppState) (r : Except String (List String)),
      (step st (.alternativesA r)).1.conversationState.historique =
        st.conversationState.historique := by
    intro st r
    show (handleAlternatives st r).1.conversationState.historique = _
    rw [(alternatives_frame st r).1]
  have hfin : ∀ (st : AppState) (rg : Except String Intent),
      (step st (.finishA rg)).1.conversationState.historique =
        st.conversationState.historique := by
    intro st rg
    show (finishOption3 st rg).1.conversationState.historique = _
    rw [finish_conversation st rg]
  have hcerr : ∀ (st : AppState) (m : String) (rd : Except String Decomposition),
      (step st (.classifyA (.error m) rd)).1.conversationState.historique =
        st.conversationState.historique := by
    intro st m rd
    show (handleClassification st (.error m) rd).1.conversationState.historique = _
    rw [(classify_err_frame st m rd).1]
  have hcnt : ∀ (st : AppState) (c : Classification) (rd : Except String Decomposition),
      jsTrim st.userInput ≠ "" → c.type ≠ ClassType.TELECOM →
      (step st (.classifyA (.ok c) rd)).1.conversationState.historique =
        st.conversationState.historique := by
    intro st c rd hb ht
    show (handleClassification st (.ok c) rd).1.conversationState.historique = _
    rw [classification_nonTelecom st c rd hb ht]
  have hctel : ∀ (st : AppState) (c : Classification) (d2 : Decomposition),
      jsTrim st.userInput ≠ "" → c.type = ClassType.TELECOM →
      (step st (.classifyA (.ok c) (.ok d2))).1.conversationState.historique =
        st.conversationState.historique ++ ["Demande: " ++ st.userInput] := by
    intro st c d2 hb ht
    show (handleClassification st (.ok c) (.ok d2)).1.conversationState.historique = _
    rw [classification_telecom_decompOk st c d2 hb ht]
  have hclar : ∀ (st : AppState) (d : Decomposition) (data : ClarifyResponse),
      jsTrim st.clarificationResponse ≠ "" → st.decomposition = some d →
      (step st (.clarifyA (.ok data))).1.conversationState.historique =
        st.conversationState.historique ++
          ["Clarification: " ++ st.clarificationResponse] := by
    intro st d data hb hd
    show (handleClarification st (.ok data)).1.conversationState.historique = _
    rw [clarification_ok st d data hb hd]
  refine ⟨?_, hval, halt, hfin, hcerr, hcnt, hctel, hclar, fun st => rfl⟩
  intro st a ha
  cases a with
  | input s => exact ⟨[], (List.append_nil _).symm⟩
  | clarifText s => exact ⟨[], (List.append_nil _).symm⟩
  | pick nom v => exact ⟨[], (List.append_nil _).symm⟩
  | dismiss => exact ⟨[], (List.append_nil _).symm⟩
  | resetA => exact absurd rfl ha
  | validateA rg => exact ⟨[], by rw [hval st rg, List.append_nil]⟩
  | alternativesA r => exact ⟨[], by rw [halt st r, List.append_nil]⟩
  | finishA rg => exact ⟨[], by rw [hfin st rg, List.append_nil]⟩
  | classifyA r rd =>
    by_cases hb : jsTrim st.userInput = ""
    · refine ⟨[], ?_⟩
      show (handleClassification st r rd).1.conversationState.historique = _
      rw [classification_blank st r rd hb]
      exact (List.append_nil _).symm
    · cases r with
      | error m => exact ⟨[], by rw [hcerr st m rd, List.append_nil]⟩
      | ok c =>
        by_cases ht : c.type = ClassType.TELECOM
        · cases rd with
          | error m =>
            refine ⟨[], ?_⟩
            show (handleClassification st (.ok c) (.error m)).1.conversationState.historique = _
            rw [(classify_decompErr_frame st c m ht).1]
            exact (List.append_nil _).symm
          | ok d2 => exact ⟨["Demande: " ++ st.userInput], hctel st c d2 hb ht⟩
        · exact ⟨[], by rw [hcnt st c rd hb ht, List.append_nil]⟩
  | clarifyA r =>
    by_cases hb : jsTrim st.clarificationResponse = ""
    · refine ⟨[], ?_⟩
      show (handleClarification st r).1.conversationState.historique = _
      rw [clarification_blank st r hb]
      exact (List.append_nil _).symm
    · cases hd : st.decomposition with
      | none =>
        refine ⟨[], ?_⟩
        show (handleClarification st r).1.conversationState.historique = _
        rw [clarification_noDecomp st r hb hd]
        exact (List.append_nil _).symm
      | some d =>
        cases r with
        | error m =>
          refine ⟨[], ?_⟩
          show (handleClarification st (.error m)).1.conversationState.historique = _
          rw [clarification_err st d m hb hd]
          exact (List.append_nil _).symm
        | ok data => exact ⟨["Clarification: " ++ st.clarificationResponse], hclar st d data hb hd⟩

/-- Witness for C5 (amended): the clarify-append component at the concrete
`cam` clarification. -/
theorem history_discipline_witness :
    jsTrim cam_s6.clarificationResponse ≠ "" ∧
      cam_s6.decomposition = some cam_d1 ∧
      (step cam_s6 (.clarifyA (.ok cam_clar))).1.conversationState.historique =
        cam_s6.conversationState.historique ++
          ["Clarification: " ++ cam_s6.clarificationResponse] :=
  ⟨by decide, by decide,
    history_discipline.2.2.2.2.2.2.2.1 cam_s6 cam_d1 cam_clar (by decide) (by decide)⟩

/-- Counterexample to claim C6 as stated: at the initial state the validated
selection is empty; the finish action causes no state change and issues no
call, but it also raises no RequestError — the error field stays `none`
instead of gaining a failure message. -/
theorem c6_counterexample :
    initState.conversationState.services_valides = [] ∧
      step initState (.finishA (.ok intentEx)) = (initState, []) ∧
      (step initState (.finishA (.ok intentEx))).1.error = none := by
  refine ⟨by decide, by decide, by decide⟩

/-- Claim C6 (amended): with an empty validated list (the guard the disabled
button actually tests, equal to the keys of the validated selection in every
reachable state) the finish action has no effect at all: no generate call, no
state change, and no RequestError message is surfaced —
`generateIntent` itself performs no emptiness check. -/
theorem finish_empty_no_effect (st : AppState) (rg : Except String Intent)
    (h : st.validatedServices = []) :
    step st (.finishA rg) = (st, []) := by
  show finishOption3 st rg = (st, [])
  exact finish_disabled st rg h

/-- Witness for C6 (amended) at the initial state. -/
theorem finish_empty_no_effect_witness :
    initState.validatedServices = [] ∧
      step initState (.finishA (.error "x")) = (initState, []) :=
  ⟨by decide, finish_empty_no_effect initState (.error "x") (by decide)⟩

end IntentApp
